import Mathlib

/-!
Verification of the rule-driven filtering/ranking/heatmap engine of the
RiyadhNow single-page map application (`app.js`).

The development shallowly embeds the engine's JavaScript into Lean:

* JavaScript numbers are modelled exactly: a finite value is an
  unnormalised fraction `Frac` (integer numerator, positive natural
  denominator), and `JNum` adds the non-finite values `NaN`, `Infinity`
  and `-Infinity`.  `Frac` is chosen over `ℚ` in computational positions
  because its comparisons reduce inside the kernel (no gcd
  normalisation); `Frac.toRat` maps into `ℚ` for specification-level
  statements.
* `JVal` distinguishes `undefined`, `null` and numeric values where the
  code's coercions make that distinction observable (`Number(null) = 0`
  while `Number(undefined) = NaN`).
* Possibly-absent string fields are `Option String`; JavaScript
  truthiness of a string is "present and non-empty".
* The regular expressions of `compilePredicate` / `compileHeat` are
  embedded as deterministic scanners over `List Char`.  Every token of
  those patterns is followed by a token whose character class is
  disjoint from it, so greedy maximal-munch matching at each start
  position, trying start positions left to right, is equivalent to the
  JavaScript (leftmost, greedy, backtracking) semantics.
* `Array.prototype.sort` with a consistent comparator is required by the
  ECMAScript specification to produce the stable sort; it is modelled by
  `List.insertionSort` with the relation "comparator value ≤ 0", which
  is exactly that stable sort.
-/

/-- An exact JavaScript finite number: an unnormalised fraction.  The
denominator carries its positivity so that specification lemmas about
`toRat` need no side conditions. -/
structure Frac where
  num : Int
  den : Nat
  den_pos : 0 < den

/-- The rational value of a `Frac`. -/
def Frac.toRat (f : Frac) : ℚ := (f.num : ℚ) / (f.den : ℚ)

/-- Embed an integer. -/
def intF (n : Int) : Frac := ⟨n, 1, Nat.one_pos⟩

/-- Embed a natural number. -/
def natF (n : Nat) : Frac := ⟨(n : Int), 1, Nat.one_pos⟩

/-- The constant 0. -/
def f0 : Frac := intF 0

/-- The constant 1. -/
def f1 : Frac := intF 1

/-- Strict semantic comparison of fractions (cross multiplication;
both denominators are positive). -/
def Frac.Slt (f g : Frac) : Prop := f.num * (g.den : Int) < g.num * (f.den : Int)

/-- Non-strict semantic comparison of fractions. -/
def Frac.Sle (f g : Frac) : Prop := f.num * (g.den : Int) ≤ g.num * (f.den : Int)

/-- Semantic equality of fractions. -/
def Frac.Seq (f g : Frac) : Prop := f.num * (g.den : Int) = g.num * (f.den : Int)

instance (f g : Frac) : Decidable (Frac.Slt f g) := by unfold Frac.Slt; infer_instance

instance (f g : Frac) : Decidable (Frac.Sle f g) := by unfold Frac.Sle; infer_instance

instance (f g : Frac) : Decidable (Frac.Seq f g) := by unfold Frac.Seq; infer_instance

instance : DecidableEq Frac := fun f g =>
  decidable_of_iff (f.num = g.num ∧ f.den = g.den) (by
    constructor
    · rintro ⟨h1, h2⟩; cases f; cases g; simp_all
    · rintro rfl; exact ⟨rfl, rfl⟩)

/-- Boolean strict comparison, used inside the embedded code. -/
def fltB (f g : Frac) : Bool := decide (Frac.Slt f g)

/-- Boolean non-strict comparison, used inside the embedded code. -/
def fleB (f g : Frac) : Bool := decide (Frac.Sle f g)

/-- Exact sum of two JavaScript finite numbers. -/
def fadd (f g : Frac) : Frac :=
  ⟨f.num * (g.den : Int) + g.num * (f.den : Int), f.den * g.den,
    Nat.mul_pos f.den_pos g.den_pos⟩

/-- Exact difference (the value a JavaScript comparator returns). -/
def fsub (f g : Frac) : Frac :=
  ⟨f.num * (g.den : Int) - g.num * (f.den : Int), f.den * g.den,
    Nat.mul_pos f.den_pos g.den_pos⟩

/-- Exact product. -/
def fmul (f g : Frac) : Frac :=
  ⟨f.num * g.num, f.den * g.den, Nat.mul_pos f.den_pos g.den_pos⟩

/-- Division by a positive natural constant. -/
def fdivNat (f : Frac) (n : Nat) (h : 0 < n) : Frac :=
  ⟨f.num, f.den * n, Nat.mul_pos f.den_pos h⟩

/-- Build a concrete fraction from a numerator and a (positive)
denominator; a zero denominator falls back to denominator 1 so that the
function is total. -/
def qF (n : Int) (d : Nat) : Frac :=
  if h : 0 < d then ⟨n, d, h⟩ else ⟨n, 1, Nat.one_pos⟩

/-- `Math.min` on finite values. -/
def fminF (f g : Frac) : Frac := if fltB g f then g else f

/-- `Math.max` on finite values. -/
def fmaxF (f g : Frac) : Frac := if fltB f g then g else f

/-- A JavaScript number: `NaN`, `Infinity`, `-Infinity` or a finite
value. -/
inductive JNum where
  | nan : JNum
  | inf : JNum
  | ninf : JNum
  | fin : Frac → JNum
deriving DecidableEq

/-- A JavaScript value in a position where the code distinguishes
`undefined` from `null` from a number (the raw coordinate fields). -/
inductive JVal where
  | undef : JVal
  | null : JVal
  | jnum : JNum → JVal
deriving DecidableEq

/-- The `??` operator on such values (`undefined` and `null` both fall
through). -/
def jvCoalesce (a b : JVal) : JVal :=
  match a with
  | JVal.undef => b
  | JVal.null => b
  | JVal.jnum _ => a

/-- The `Number(·)` coercion: `Number(undefined) = NaN`,
`Number(null) = 0`, numbers unchanged. -/
def toNumber (v : JVal) : JNum :=
  match v with
  | JVal.undef => JNum.nan
  | JVal.null => JNum.fin f0
  | JVal.jnum x => x

/-- `Number.isFinite`. -/
def jnIsFinite (x : JNum) : Bool :=
  match x with
  | JNum.fin _ => true
  | _ => false

/-- JavaScript `<` on numbers: any comparison with `NaN` is false. -/
def jnLtB (x y : JNum) : Bool :=
  match x, y with
  | JNum.nan, _ => false
  | _, JNum.nan => false
  | JNum.fin f, JNum.fin g => fltB f g
  | JNum.inf, _ => false
  | JNum.ninf, JNum.ninf => false
  | JNum.ninf, _ => true
  | JNum.fin _, JNum.inf => true
  | JNum.fin _, JNum.ninf => false

/-- JavaScript `>` on numbers. -/
def jnGtB (x y : JNum) : Bool := jnLtB y x

/-- JavaScript `<=` on numbers: false whenever `NaN` is involved. -/
def jnLeB (x y : JNum) : Bool :=
  match x, y with
  | JNum.nan, _ => false
  | _, JNum.nan => false
  | JNum.fin f, JNum.fin g => fleB f g
  | JNum.inf, JNum.inf => true
  | JNum.inf, _ => false
  | JNum.ninf, _ => true
  | JNum.fin _, JNum.inf => true
  | JNum.fin _, JNum.ninf => false

/-- JavaScript `>=` on numbers. -/
def jnGeB (x y : JNum) : Bool := jnLeB y x

/-- JavaScript `Math.min` of two numbers (`NaN` if either is `NaN`). -/
def jnMin (x y : JNum) : JNum :=
  match x, y with
  | JNum.nan, _ => JNum.nan
  | _, JNum.nan => JNum.nan
  | JNum.inf, b => b
  | a, JNum.inf => a
  | JNum.ninf, _ => JNum.ninf
  | _, JNum.ninf => JNum.ninf
  | JNum.fin f, JNum.fin g => JNum.fin (fminF f g)

/-- JavaScript `Math.max` of two numbers (`NaN` if either is `NaN`). -/
def jnMax (x y : JNum) : JNum :=
  match x, y with
  | JNum.nan, _ => JNum.nan
  | _, JNum.nan => JNum.nan
  | JNum.inf, _ => JNum.inf
  | _, JNum.inf => JNum.inf
  | JNum.ninf, b => b
  | a, JNum.ninf => a
  | JNum.fin f, JNum.fin g => JNum.fin (fmaxF f g)

/-- Multiplication by a positive finite constant (used for the heat
blend weights `0.65` and `0.35`): sign-preserving on infinities. -/
def jnMulPos (c : Frac) (x : JNum) : JNum :=
  match x with
  | JNum.nan => JNum.nan
  | JNum.inf => JNum.inf
  | JNum.ninf => JNum.ninf
  | JNum.fin f => JNum.fin (fmul c f)

/-- JavaScript `+` on numbers. -/
def jnAdd (x y : JNum) : JNum :=
  match x, y with
  | JNum.nan, _ => JNum.nan
  | _, JNum.nan => JNum.nan
  | JNum.inf, JNum.ninf => JNum.nan
  | JNum.ninf, JNum.inf => JNum.nan
  | JNum.inf, _ => JNum.inf
  | _, JNum.inf => JNum.inf
  | JNum.ninf, _ => JNum.ninf
  | _, JNum.ninf => JNum.ninf
  | JNum.fin f, JNum.fin g => JNum.fin (fadd f g)

/-- Division by a positive natural constant (used for `v / 500`). -/
def jnDivNat (x : JNum) (n : Nat) (h : 0 < n) : JNum :=
  match x with
  | JNum.nan => JNum.nan
  | JNum.inf => JNum.inf
  | JNum.ninf => JNum.ninf
  | JNum.fin f => JNum.fin (fdivNat f n h)

/-- JavaScript string truthiness of a possibly-absent string field:
present and non-empty.  (Identity and classification fields of the API
payload are strings when present.) -/
def truthyS (o : Option String) : Bool :=
  match o with
  | some s => s ≠ ""
  | none => false

/-- The value of a `a || b || dflt` chain over string fields: the first
truthy operand, else the (truthy, literal) default. -/
def jsOrStr (o : Option String) (dflt : String) : String :=
  match o with
  | some s => if s = "" then dflt else s
  | none => dflt

/-- The whitespace class used by `trim`, `\s` and friends (ASCII
whitespace plus NBSP; the full Unicode class is irrelevant to the
configuration vocabulary). -/
def isWsC (c : Char) : Bool :=
  c.toNat = 32 || c.toNat = 9 || c.toNat = 10 || c.toNat = 11 ||
  c.toNat = 12 || c.toNat = 13 || c.toNat = 160

/-- `String.prototype.trim` on a character list. -/
def trimL (l : List Char) : List Char :=
  ((l.dropWhile isWsC).reverse.dropWhile isWsC).reverse

/-- `toLowerCase` on a character list (the engine's strings are ASCII
and Arabic; Arabic is case-less, so `Char.toLower` is faithful). -/
def toLowerL (l : List Char) : List Char := l.map Char.toLower

/-- Does `l` begin with `pat`? -/
def leadsWith : List Char → List Char → Bool
  | [], _ => true
  | _ :: _, [] => false
  | p :: ps, c :: cs => p = c && leadsWith ps cs

/-- JavaScript `String.prototype.includes` (substring search). -/
def containsSub (pat : List Char) : List Char → Bool
  | [] => leadsWith pat []
  | l@(_ :: t) => leadsWith pat l || containsSub pat t

/-- Single-quote character, written by code point. -/
def sqc : Char := Char.ofNat 39

/-- The regex class `['"]`. -/
def quoteC (c : Char) : Bool := c = sqc || c = '"'

/-- The regex class `[^'"]`. -/
def notQuoteC (c : Char) : Bool := !(quoteC c)

/-- The regex class `[\d.]`. -/
def numDotC (c : Char) : Bool := c.isDigit || c = '.'

/-- The regex class `\w` (`[A-Za-z0-9_]`). -/
def wordC (c : Char) : Bool := c.isAlphanum || c = '_'

/-- Consume greedy `\s*`. -/
def skipWs (l : List Char) : List Char := l.dropWhile isWsC

/-- Consume a literal, or fail. -/
def expectLit (pat : List Char) (l : List Char) : Option (List Char) :=
  if leadsWith pat l then some (l.drop pat.length) else none

/-- Consume a non-empty greedy run of a character class (a `+`
quantifier), capturing it. -/
def capWhile1 (f : Char → Bool) (l : List Char) : Option (List Char × List Char) :=
  match l.takeWhile f with
  | [] => none
  | cap => some (cap, l.drop cap.length)

/-- Consume one `['"]`. -/
def expectQuote (l : List Char) : Option (List Char) :=
  match l with
  | [] => none
  | c :: t => if quoteC c then some t else none

/-- Try a matcher at every start position, left to right (the leftmost
match of an unanchored regex `search`). -/
def scanFor (m : List Char → Option β) : List Char → Option β
  | [] => m []
  | l@(_ :: t) =>
    match m l with
    | some r => some r
    | none => scanFor m t

/-- Consume `v\s*op\s*(cls+)` — a variable compared against a captured
number, the building block of patterns 1–3. -/
def numCmpTok (v op : List Char) (cls : Char → Bool) (l : List Char) :
    Option (List Char × List Char) :=
  Option.bind (expectLit v l) fun l1 =>
  Option.bind (expectLit op (skipWs l1)) fun l2 =>
  capWhile1 cls (skipWs l2)

/-- Consume `\s*&&\s*`. -/
def ampTok (l : List Char) : Option (List Char) :=
  Option.bind (expectLit "&&".data (skipWs l)) fun l2 => some (skipWs l2)

/-- Consume `['"]([^'"]+)['"]`, capturing the quoted text. -/
def quotedTok (l : List Char) : Option (List Char × List Char) :=
  Option.bind (expectQuote l) fun l1 =>
  Option.bind (capWhile1 notQuoteC l1) fun p =>
  Option.bind (expectQuote p.2) fun l3 => some (p.1, l3)

/-- Consume `s\s*!==\s*['"]([^'"]+)['"]` — the sentiment-exclusion
clause common to patterns 1 and 2. -/
def sentNeqTok (l : List Char) : Option (List Char × List Char) :=
  Option.bind (expectLit ['s'] l) fun l1 =>
  Option.bind (expectLit "!==".data (skipWs l1)) fun l2 =>
  quotedTok (skipWs l2)

/-- Matcher for pattern 1 of `compilePredicate` (the "discover" shape)
at one position:
`r\s*>=\s*([\d.]+)\s*&&\s*v\s*>=\s*(\d+)\s*&&\s*v\s*<=\s*(\d+)\s*&&\s*s\s*!==\s*['"]([^'"]+)['"]`. -/
def matchDiscoverAt (l0 : List Char) : Option (List Char × List Char × List Char × List Char) :=
  Option.bind (numCmpTok ['r'] ">=".data numDotC l0) fun p1 =>
  Option.bind (ampTok p1.2) fun a1 =>
  Option.bind (numCmpTok ['v'] ">=".data Char.isDigit a1) fun p2 =>
  Option.bind (ampTok p2.2) fun a2 =>
  Option.bind (numCmpTok ['v'] "<=".data Char.isDigit a2) fun p3 =>
  Option.bind (ampTok p3.2) fun a3 =>
  Option.bind (sentNeqTok a3) fun p4 =>
  some (p1.1, p2.1, p3.1, p4.1)

/-- Matcher for pattern 2 of `compilePredicate` (the "must_go" shape):
`b2\s*>=\s*([\d.]+)\s*&&\s*v\s*>=\s*(\d+)\s*&&\s*s\s*!==\s*['"]([^'"]+)['"]`. -/
def matchMustGoAt (l0 : List Char) : Option (List Char × List Char × List Char) :=
  Option.bind (numCmpTok "b2".data ">=".data numDotC l0) fun p1 =>
  Option.bind (ampTok p1.2) fun a1 =>
  Option.bind (numCmpTok ['v'] ">=".data Char.isDigit a1) fun p2 =>
  Option.bind (ampTok p2.2) fun a2 =>
  Option.bind (sentNeqTok a2) fun p3 =>
  some (p1.1, p2.1, p3.1)

/-- Matcher for pattern 3 of `compilePredicate` (the "top_rated"
shape): `r\s*>=\s*([\d.]+)\s*&&\s*v\s*>=\s*(\d+)`. -/
def matchTopRatedAt (l0 : List Char) : Option (List Char × List Char) :=
  Option.bind (numCmpTok ['r'] ">=".data numDotC l0) fun p1 =>
  Option.bind (ampTok p1.2) fun a1 =>
  Option.bind (numCmpTok ['v'] ">=".data Char.isDigit a1) fun p2 =>
  some (p1.1, p2.1)

/-- Matcher for pattern 4 of `compilePredicate` (the "raqi" text-search
shape): `const q\s*=\s*['"]([^'"]+)['"]`. -/
def matchRaqiAt (l0 : List Char) : Option (List Char) :=
  Option.bind (expectLit "const q".data l0) fun l1 =>
  Option.bind (expectLit ['='] (skipWs l1)) fun l2 =>
  Option.bind (quotedTok (skipWs l2)) fun p =>
  some p.1

/-- Matcher for the single shape of `compileHeat`:
`return\s*\(\s*p\.(\w+)\s*\?\?\s*([\d.]+)\s*\)\s*;?` (the trailing
`\s*;?` always succeeds and binds nothing, so it is not modelled). -/
def matchHeatAt (l0 : List Char) : Option (List Char × List Char) :=
  Option.bind (expectLit "return".data l0) fun l1 =>
  Option.bind (expectLit ['('] (skipWs l1)) fun l2 =>
  Option.bind (expectLit "p.".data (skipWs l2)) fun l3 =>
  Option.bind (capWhile1 wordC l3) fun p1 =>
  Option.bind (expectLit "??".data (skipWs p1.2)) fun l5 =>
  Option.bind (capWhile1 numDotC (skipWs l5)) fun p2 =>
  Option.bind (expectLit [')'] (skipWs p2.2)) fun _ =>
  some (p1.1, p2.1)

/-- `code.match(discover pattern)`. -/
def scanDiscover (l : List Char) : Option (List Char × List Char × List Char × List Char) :=
  scanFor matchDiscoverAt l

/-- `code.match(must_go pattern)`. -/
def scanMustGo (l : List Char) : Option (List Char × List Char × List Char) :=
  scanFor matchMustGoAt l

/-- `code.match(top_rated pattern)`. -/
def scanTopRated (l : List Char) : Option (List Char × List Char) :=
  scanFor matchTopRatedAt l

/-- `code.match(raqi pattern)`. -/
def scanRaqi (l : List Char) : Option (List Char) :=
  scanFor matchRaqiAt l

/-- `code.match(heat pattern)`. -/
def scanHeat (l : List Char) : Option (List Char × List Char) :=
  scanFor matchHeatAt l

/-- Value of a digit list as a natural number. -/
def digitsToNat (l : List Char) : Nat :=
  l.foldl (fun acc c => acc * 10 + (c.toNat - 48)) 0

/-- `parseInt(s, 10)` on a capture of `\d+` (always all digits). -/
def parseIntNat (l : List Char) : Nat := digitsToNat l

/-- `parseFloat` on a capture of `[\d.]+`: leading digits, optionally
one dot and more digits, ignoring anything from a second dot on;
`none` is `NaN` (no digits before the trailing garbage). -/
def parseFloatF (l : List Char) : Option Frac :=
  let intPart := l.takeWhile Char.isDigit
  let rest := l.drop intPart.length
  match rest with
  | '.' :: rest2 =>
    let fracPart := rest2.takeWhile Char.isDigit
    if intPart = [] && fracPart = [] then none
    else
      some ⟨(digitsToNat intPart * 10 ^ fracPart.length + digitsToNat fracPart : Nat),
            10 ^ fracPart.length, Nat.pos_pow_of_pos _ (by norm_num)⟩
  | _ =>
    if intPart = [] then none else some (natF (digitsToNat intPart))

/-- JavaScript template-literal rendering of a possibly-absent string
field (an absent field prints as "undefined"). -/
def jsTemplate (o : Option String) : String :=
  match o with
  | some s => s
  | none => "undefined"

/-- The value of `a || b` over two possibly-absent string fields. -/
def firstTruthy2 (a b : Option String) : Option String :=
  if truthyS a then a else b

/-- The source file's literal for the Arabic "all" sentinel, exactly as
its (encoding-mangled) bytes appear in the active copy of `app.js`. -/
def allSentinel : String := "ÿßŸÑŸÉŸÑ"

/-- The source file's literal for the default (neutral) sentiment. -/
def neutralSentiment : String := "ŸÖÿ≠ÿßŸäÿØ"

/-- One raw row of the places API payload (every field the engine ever
reads; absent fields are `none` / `JVal.undef`). -/
structure RawPlace where
  place_id : Option String
  id : Option String
  gid : Option String
  name : Option String
  lat : JVal
  latitude : JVal
  lng : JVal
  longitude : JVal
  rating : Option JNum
  rating_count : Option JNum
  user_ratings_total : Option JNum
  reviews : Option JNum
  bayes2_score : Option JNum
  trust : Option JNum
  district : Option String
  district_ar : Option String
  district_slug_ar : Option String
  category : Option String
  primary_type : Option String
  primary_type_display_name : Option String
  sentiment_label_ar : Option String
  sentiment : Option String
  price_level : Option String
  price : Option String
  price_bucket_ar : Option String
  tags : Option (List String)
  tags_ar : Option (List String)
  top_tags : Option (List String)
  summary : Option String
  link : Option String
  pros_ar : Option (List String)
deriving DecidableEq

/-- A raw row with every field absent, the base for concrete test
rows. -/
def rawEmpty : RawPlace :=
  { place_id := none, id := none, gid := none, name := none,
    lat := JVal.undef, latitude := JVal.undef, lng := JVal.undef,
    longitude := JVal.undef, rating := none, rating_count := none,
    user_ratings_total := none, reviews := none, bayes2_score := none,
    trust := none, district := none, district_ar := none,
    district_slug_ar := none, category := none, primary_type := none,
    primary_type_display_name := none, sentiment_label_ar := none,
    sentiment := none, price_level := none, price := none,
    price_bucket_ar := none, tags := none, tags_ar := none,
    top_tags := none, summary := none, link := none, pros_ar := none }

/-- The canonical place record built by the loader (`DATA` entries) or
by `normalizeSimilarResults` (whose records lack the classification
fields, hence the `Option` types there). -/
structure Place where
  id : String
  place_id : Option String
  name : String
  district : Option String
  district_slug_ar : Option String
  category : Option String
  sentiment : Option String
  price : Option String
  rating : Option JNum
  reviews : Option JNum
  rating_count : Option JNum
  trust : Option JNum
  bayes2_score : Option JNum
  sentiment_label_ar : String
  price_level : Option String
  price_bucket_ar : String
  lat : JNum
  lng : JNum
  tags : List String
  summary : String
  link : String
  pros_ar : List String
deriving DecidableEq

/-- `validatePlaceData` (app.js, active copy): identity presence, then
finite coordinates, then geographic range.  The missing-name branch
only logs a warning and does not affect validity, so the model returns
the validity boolean. -/
def validatePlaceData (p : RawPlace) : Bool :=
  if !(truthyS p.place_id || truthyS p.id || truthyS p.gid) then false
  else
    let lat := toNumber (jvCoalesce p.lat p.latitude)
    let lng := toNumber (jvCoalesce p.lng p.longitude)
    if !(jnIsFinite lat && jnIsFinite lng) then false
    else if jnLtB lat (JNum.fin (intF (-90))) || jnGtB lat (JNum.fin (intF 90)) ||
        jnLtB lng (JNum.fin (intF (-180))) || jnGtB lng (JNum.fin (intF 180)) then false
    else true

/-- The per-record part of `validateAPIResponse`: keep exactly the rows
`validatePlaceData` accepts (rejected rows are only counted and
logged). -/
def validResults (results : List RawPlace) : List RawPlace :=
  results.filter validatePlaceData

/-- `Number(a ?? b ?? 0)` over optional numeric fields. -/
def jnC2 (a b : Option JNum) : JNum :=
  ((a.orElse fun _ => b)).getD (JNum.fin f0)

/-- `Number(a ?? b ?? c ?? 0)` over optional numeric fields. -/
def jnC3 (a b c : Option JNum) : JNum :=
  (((a.orElse fun _ => b)).orElse fun _ => c).getD (JNum.fin f0)

/-- The record constructor inside `DATA = validation.results.map(...)`
of `loadRealPlacesAndBootstrapUI`.  `String(Math.random())`, used only
when every identity field is falsy (which validation has already
excluded), is modelled by the parameter `rnd`. -/
def normalizePlace (rnd : String) (p : RawPlace) : Place :=
  let tags :=
    match p.tags with
    | some t => t
    | none =>
      match p.tags_ar with
      | some t => t
      | none =>
        match p.top_tags with
        | some t => t
        | none => []
  let district := jsOrStr p.district (jsOrStr p.district_ar "all")
  let district_slug_ar := jsOrStr p.district_slug_ar ""
  let category :=
    jsOrStr p.category (jsOrStr p.primary_type (jsOrStr p.primary_type_display_name "other"))
  let sentiment := jsOrStr p.sentiment_label_ar (jsOrStr p.sentiment neutralSentiment)
  let price := jsOrStr p.price_level (jsOrStr p.price allSentinel)
  { id := jsOrStr p.place_id (jsOrStr p.id (jsOrStr p.gid rnd))
    place_id := firstTruthy2 p.place_id p.id
    name := jsOrStr p.name ""
    district := some district
    district_slug_ar := some district_slug_ar
    category := some category
    sentiment := some sentiment
    price := some price
    rating := some ((p.rating).getD (JNum.fin f0))
    reviews := some (jnC3 p.rating_count p.user_ratings_total p.reviews)
    rating_count := some (jnC3 p.rating_count p.user_ratings_total p.reviews)
    trust := some (jnC2 p.bayes2_score p.trust)
    bayes2_score := some (jnC2 p.bayes2_score p.trust)
    sentiment_label_ar := sentiment
    price_level := some price
    price_bucket_ar := jsOrStr p.price_bucket_ar ""
    lat := toNumber (jvCoalesce p.lat p.latitude)
    lng := toNumber (jvCoalesce p.lng p.longitude)
    tags := tags
    summary := jsOrStr p.summary ""
    link := jsOrStr p.link ""
    pros_ar := p.pros_ar.getD [] }

/-- A successful places load: validation then canonicalisation. -/
def loadPlaces (rnd : String) (results : List RawPlace) : List Place :=
  (validResults results).map (normalizePlace rnd)

/-- The value `0.50` substituted for a missing trust score by the
must_go predicate shape. -/
def fHalf : Frac := ⟨1, 2, by norm_num⟩

/-- JavaScript `x >= t` where the threshold came from `parseFloat` and
may be `NaN` (`none`), in which case the comparison is false. -/
def jnGeOptF (x : JNum) (t : Option Frac) : Bool :=
  match t with
  | some m => jnGeB x (JNum.fin m)
  | none => false

/-- The compiled "discover" predicate (pattern 1 of
`compilePredicate`), parameterised by the four captures. -/
def discoverPred (c : List Char × List Char × List Char × List Char) (p : Place) : Bool :=
  let minRating := parseFloatF c.1
  let minReviews := parseIntNat c.2.1
  let maxReviews := parseIntNat c.2.2.1
  let excludeSentiment := String.mk c.2.2.2
  let r := (p.rating).getD (JNum.fin f0)
  let v := (p.rating_count).getD (JNum.fin f0)
  let s := p.sentiment_label_ar
  jnGeOptF r minRating && jnGeB v (JNum.fin (natF minReviews)) &&
    jnLeB v (JNum.fin (natF maxReviews)) && (s != excludeSentiment)

/-- The compiled "must_go" predicate (pattern 2): note the `0.50`
default for a missing `bayes2_score`. -/
def mustGoPred (c : List Char × List Char × List Char) (p : Place) : Bool :=
  let minBayes := parseFloatF c.1
  let minReviews := parseIntNat c.2.1
  let excludeSentiment := String.mk c.2.2
  let b2 := (p.bayes2_score).getD (JNum.fin fHalf)
  let v := (p.rating_count).getD (JNum.fin f0)
  let s := p.sentiment_label_ar
  jnGeOptF b2 minBayes && jnGeB v (JNum.fin (natF minReviews)) && (s != excludeSentiment)

/-- The compiled "top_rated" predicate (pattern 3). -/
def topRatedPred (c : List Char × List Char) (p : Place) : Bool :=
  let minRating := parseFloatF c.1
  let minReviews := parseIntNat c.2
  let r := (p.rating).getD (JNum.fin f0)
  let v := (p.rating_count).getD (JNum.fin f0)
  jnGeOptF r minRating && jnGeB v (JNum.fin (natF minReviews))

/-- The search haystack shared by the raqi predicate and the free-text
filter: `${p.name} ${(p.tags||[]).join(' ')} ${p.category} ${p.district}`. -/
def haystackStr (p : Place) : String :=
  p.name ++ " " ++ String.intercalate " " p.tags ++ " " ++
    jsTemplate p.category ++ " " ++ jsTemplate p.district

/-- The compiled "raqi" text-search predicate (pattern 4). -/
def raqiPred (c : List Char) (p : Place) : Bool :=
  containsSub (toLowerL c) (toLowerL (haystackStr p).data)

/-- `compilePredicate` (app.js, active copy).  The function is total:
the `catch` branch of the source is unreachable in the model, and every
fall-through returns the always-true predicate. -/
def compilePredicate (codeStr : String) : Place → Bool :=
  let code := trimL codeStr.data
  if code = [] || code = "return true;".data then fun _ => true
  else
    match scanDiscover code with
    | some caps => discoverPred caps
    | none =>
      match scanMustGo code with
      | some caps => mustGoPred caps
      | none =>
        match scanTopRated code with
        | some caps => topRatedPred caps
        | none =>
          match scanRaqi code with
          | some cap => raqiPred cap
          | none => fun _ => true

/-- The whitelist of heat fields. -/
def allowedFields : List String := ["bayes2_score", "rating", "rating_count", "trust_score"]

/-- Dynamic field read `p[fieldName]` for the whitelisted heat fields.
The canonical record has no `trust_score` field, so that name reads
`undefined`. -/
def getHeatField (p : Place) (f : String) : Option JNum :=
  if f = "bayes2_score" then p.bayes2_score
  else if f = "rating" then p.rating
  else if f = "rating_count" then p.rating_count
  else none

/-- The compiled heat closure: `(p) => { const v = p[f] ?? d; const n =
Number(v); return Number.isFinite(n) ? n : 0; }`. -/
def heatFieldFn (fieldName : String) (defaultValue : Frac) (p : Place) : JNum :=
  let v := (getHeatField p fieldName).getD (JNum.fin defaultValue)
  if jnIsFinite v then v else JNum.fin f0

/-- `compileHeat` (app.js, active copy).  `parseFloat(m[2]) || 0` sends
both `NaN` and `0` to `0`. -/
def compileHeat (codeStr : String) : Place → JNum :=
  let code := trimL codeStr.data
  if code = [] then fun _ => JNum.fin f0
  else
    match scanHeat code with
    | some caps =>
      let fieldName := String.mk caps.1
      let defaultValue := (parseFloatF caps.2).getD f0
      if !(allowedFields.contains fieldName) then fun _ => JNum.fin f0
      else heatFieldFn fieldName defaultValue
    | none => fun _ => JNum.fin f0

/-- The heat blend constant `0.65`. -/
def c065 : Frac := ⟨65, 100, by norm_num⟩

/-- The heat blend constant `0.35`. -/
def c035 : Frac := ⟨35, 100, by norm_num⟩

/-- The default heat weight of `updateHeatLayer`:
`max(0, min(1, 0.65*b2 + 0.35*max(0, min(1, v/500))))` over JavaScript
number arithmetic (so `NaN` propagates). -/
def heatDefaultFn (p : Place) : JNum :=
  let b2 := (p.bayes2_score).getD (JNum.fin f0)
  let v := (p.rating_count).getD (JNum.fin f0)
  let nv := jnMax (JNum.fin f0) (jnMin (JNum.fin f1) (jnDivNat v 500 (by norm_num)))
  jnMax (JNum.fin f0) (jnMin (JNum.fin f1) (jnAdd (jnMulPos c065 b2) (jnMulPos c035 nv)))

/-- The weight `updateHeatLayer` pushes for one record: the insight's
compiled heat function if there is one, else the default blend; a
non-finite result is replaced by `0.2`. -/
def updateHeatWeight (heatFn : Option (Place → JNum)) (p : Place) : Frac :=
  let w := (heatFn.getD heatDefaultFn) p
  match w with
  | JNum.fin q => q
  | _ => ⟨1, 5, by norm_num⟩

/-- `num` (app.js utilities): `Number(v ?? 0)` guarded by
`Number.isFinite`, so missing and non-finite values coerce to `0`. -/
def num (v : Option JNum) : Frac :=
  match v with
  | some (JNum.fin f) => f
  | _ => f0

/-- Dynamic numeric field read `rec[f]` used by the `desc:`/`asc:` sort
directives.  The engine's sort directives only ever name numeric
fields; a non-numeric or unknown field is modelled as `undefined`
(which `num` coerces to `0`). -/
def getField (p : Place) (f : String) : Option JNum :=
  if f = "rating" then p.rating
  else if f = "rating_count" then p.rating_count
  else if f = "reviews" then p.reviews
  else if f = "trust" then p.trust
  else if f = "bayes2_score" then p.bayes2_score
  else if f = "lat" then some p.lat
  else if f = "lng" then some p.lng
  else none

/-- `sortBySpec(a, b, spec)` (app.js): the comparator value, an exact
JavaScript number.  `if (d)` tests number truthiness, i.e. the value is
non-zero (`num` never yields `NaN`), i.e. the numerator is non-zero. -/
def sortBySpec (a b : Place) (spec : String) : Frac :=
  let s := spec.data
  if leadsWith "desc:".data s then
    let f := String.mk (s.drop 5)
    fsub (num (getField b f)) (num (getField a f))
  else if leadsWith "asc:".data s then
    let f := String.mk (s.drop 4)
    fsub (num (getField a f)) (num (getField b f))
  else if spec = "special:mustgo" then
    let d1 := fsub (num b.bayes2_score) (num a.bayes2_score)
    if d1.num ≠ 0 then d1
    else
      let d2 := fsub (num b.rating_count) (num a.rating_count)
      if d2.num ≠ 0 then d2
      else fsub (num b.rating) (num a.rating)
  else
    let d := fsub (num b.trust) (num a.trust)
    if d.num ≠ 0 then d
    else fsub (num b.rating_count) (num a.rating_count)

/-- The sort relation induced by the comparator: "the comparator says
`a` does not come after `b`" (`cmp(a,b) <= 0`).  A stable sort with
respect to this relation is what `Array.prototype.sort` produces for a
consistent comparator. -/
def cmpLe (spec : String) (a b : Place) : Prop := (sortBySpec a b spec).num ≤ 0

instance (spec : String) : DecidableRel (cmpLe spec) := fun _ _ => by
  unfold cmpLe; infer_instance

/-- One compiled insight rule (presentation-only fields omitted). -/
structure Insight where
  key : String
  predicate : Place → Bool
  sort : String
  heatFn : Option (Place → JNum)

/-- The synthetic base "all" insight that `rebuildInsightsFromToggleConfig`
always puts first. -/
def defaultAllInsight : Insight :=
  { key := "all", predicate := fun _ => true, sort := "desc:bayes2_score", heatFn := none }

/-- `INSIGHTS.find(x => x.key === state.insight) || INSIGHTS[0]`.  On an
empty insight list the source would throw; the list always contains the
base insight, which the fallback default mirrors. -/
def resolveInsight (insights : List Insight) (key : String) : Insight :=
  match insights.find? (fun x => x.key == key) with
  | some i => i
  | none => insights.headD defaultAllInsight

/-- The UI filter selection read by the pipeline. -/
structure FilterState where
  similarMode : Bool
  q : String
  district : String
  insight : String
  categories : List String
  sentiment : String
  price : String
  tags : List String

/-- `p.field === state.field` where the record field may be absent
(strict equality with `undefined` is false). -/
def optEqStr (o : Option String) (s : String) : Bool :=
  match o with
  | some x => x == s
  | none => false

/-- Pipeline stage 1: district equality. -/
def districtStage (st : FilterState) (p : Place) : Bool :=
  if st.district = "all" then true else optEqStr p.district st.district

/-- Pipeline stage 2: category membership. -/
def categoryStage (st : FilterState) (p : Place) : Bool :=
  if st.categories.contains "all" then true
  else
    match p.category with
    | some c => st.categories.contains c
    | none => false

/-- Pipeline stage 4: free-text containment over the haystack. -/
def textStage (st : FilterState) (p : Place) : Bool :=
  let q := toLowerL st.q.data
  if q = [] then true else containsSub q (toLowerL (haystackStr p).data)

/-- Pipeline stage 5: sentiment equality with the "all" sentinel. -/
def sentimentStage (st : FilterState) (p : Place) : Bool :=
  if st.sentiment = allSentinel then true else optEqStr p.sentiment st.sentiment

/-- Pipeline stage 6: price equality with the "all" sentinel. -/
def priceStage (st : FilterState) (p : Place) : Bool :=
  if st.price = allSentinel then true else optEqStr p.price st.price

/-- Pipeline stage 7: every selected tag appears in the record's tag
list. -/
def tagsStage (st : FilterState) (p : Place) : Bool :=
  if st.tags = [] then true else st.tags.all (fun t => p.tags.contains t)

/-- `filterData(rows)` (app.js): the seven filter stages in source
order — the first three bypassed in similarity mode — then the sort by
the active insight's directive. -/
def filterData (insights : List Insight) (st : FilterState) (rows : List Place) : List Place :=
  let insightObj := resolveInsight insights st.insight
  let pred := insightObj.predicate
  (((((((rows.filter
      (fun p => if st.similarMode then true else districtStage st p)).filter
      (fun p => if st.similarMode then true else categoryStage st p)).filter
      (fun p => if st.similarMode then true else pred p)).filter
      (textStage st)).filter
      (sentimentStage st)).filter
      (priceStage st)).filter
      (tagsStage st)).insertionSort (cmpLe insightObj.sort)

/-- `String(x.place_id || x.id)` for a similarity row. -/
def simId (x : RawPlace) : String := jsTemplate (firstTruthy2 x.place_id x.id)

/-- `normalizeSimilarResults(arr, anchorId)` (app.js): keep rows with a
truthy identifier different from the anchor's, project them onto the
similarity record shape, and keep those with finite coordinates.  The
classification fields (`district`, `category`, `sentiment`, `price`,
...) are not set by the source and are therefore absent; `pros_ar`
(absent, unread by the engine) is modelled as `[]`. -/
def normalizeSimilarResults (arr : List RawPlace) (anchorId : String) : List Place :=
  ((arr.filter
      (fun x => (truthyS x.place_id || truthyS x.id) && (simId x != anchorId))).map
    (fun x =>
      { id := simId x
        place_id := some (simId x)
        name := jsOrStr x.name ""
        district := none
        district_slug_ar := none
        category := none
        sentiment := none
        price := none
        rating := x.rating
        reviews := none
        rating_count := x.rating_count
        trust := none
        bayes2_score := x.bayes2_score
        sentiment_label_ar := jsOrStr x.sentiment_label_ar ""
        price_level := none
        price_bucket_ar := jsOrStr x.price_bucket_ar ""
        lat := toNumber x.lat
        lng := toNumber x.lng
        tags := x.tags.getD []
        summary := jsOrStr x.summary ""
        link := jsOrStr x.link ""
        pros_ar := [] })).filter
    (fun p => jnIsFinite p.lat && jnIsFinite p.lng)

/-- A minimal concrete canonical record, the base for concrete test
records. -/
def basePlace : Place :=
  { id := "p1", place_id := some "p1", name := "", district := none,
    district_slug_ar := none, category := none, sentiment := none,
    price := none, rating := none, reviews := none, rating_count := none,
    trust := none, bayes2_score := none, sentiment_label_ar := "",
    price_level := none, price_bucket_ar := "", lat := JNum.fin f0,
    lng := JNum.fin f0, tags := [], summary := "", link := "",
    pros_ar := [] }

/-- A neutral filter state (everything wide open), the base for
concrete test states. -/
def baseState : FilterState :=
  { similarMode := false, q := "", district := "all", insight := "all",
    categories := ["all"], sentiment := allSentinel, price := allSentinel,
    tags := [] }

/-- Lexicographic non-strict order on rational key triples — the
specification-level ordering realised by the comparators. -/
def lexQle (x y : ℚ × ℚ × ℚ) : Prop :=
  x.1 < y.1 ∨ (x.1 = y.1 ∧ (x.2.1 < y.2.1 ∨ (x.2.1 = y.2.1 ∧ x.2.2 ≤ y.2.2)))

/-- The rational key triple a sort directive orders by (descending). -/
def sortKey (spec : String) (p : Place) : ℚ × ℚ × ℚ :=
  let s := spec.data
  if leadsWith "desc:".data s then
    ((num (getField p (String.mk (s.drop 5)))).toRat, 0, 0)
  else if leadsWith "asc:".data s then
    (-(num (getField p (String.mk (s.drop 4)))).toRat, 0, 0)
  else if spec = "special:mustgo" then
    ((num p.bayes2_score).toRat, (num p.rating_count).toRat, (num p.rating).toRat)
  else
    ((num p.trust).toRat, (num p.rating_count).toRat, 0)

/-- Sequential application of a list of filters (the filter pipeline as
a fold, used to state facts uniformly over the seven stages). -/
def applyFilters (fs : List (α → Bool)) (l : List α) : List α :=
  fs.foldl (fun acc f => acc.filter f) l

/-- The seven pipeline stages of `filterData` in source order. -/
def stageList (insights : List Insight) (st : FilterState) : List (Place → Bool) :=
  let insightObj := resolveInsight insights st.insight
  let pred := insightObj.predicate
  [fun p => if st.similarMode then true else districtStage st p,
   fun p => if st.similarMode then true else categoryStage st p,
   fun p => if st.similarMode then true else pred p,
   textStage st, sentimentStage st, priceStage st, tagsStage st]

/-- Identity presence exactly as the validator tests it. -/
def rawHasIdentity (p : RawPlace) : Bool :=
  truthyS p.place_id || truthyS p.id || truthyS p.gid

/-- Finite, range-valid coordinates of a raw row, computed over the
same coerced coordinate values the validator sees. -/
def rawCoordsValidB (p : RawPlace) : Bool :=
  match toNumber (jvCoalesce p.lat p.latitude), toNumber (jvCoalesce p.lng p.longitude) with
  | JNum.fin qa, JNum.fin qb =>
    fleB (intF (-90)) qa && fleB qa (intF 90) && fleB (intF (-180)) qb && fleB qb (intF 180)
  | _, _ => false

/-- The discovery rule of spec scenario 2, in the configuration's
concrete vocabulary. -/
def rule2 : String := "r >= 4.1 && v >= 30 && v <= 180 && s !== 'negative'"

/-- Scenario 2's record: rating 4.3, 100 reviews, positive sentiment. -/
def recA : Place := { basePlace with
  rating := some (JNum.fin (qF 43 10))
  rating_count := some (JNum.fin (natF 100))
  sentiment_label_ar := "positive" }

/-- Scenario 2's record with 500 reviews. -/
def recB : Place := { recA with rating_count := some (JNum.fin (natF 500)) }

/-- A rule text matching none of the four predicate shapes. -/
def gibberishRule : String := "show me everything nice"

/-- A concrete must_go rule with trust threshold 0.45. -/
def mgRule : String := "b2 >= 0.45 && v >= 50 && s !== 'negative'"

/-- A record with no trust score, 60 reviews, positive sentiment. -/
def recMG : Place := { basePlace with
  rating_count := some (JNum.fin (natF 60))
  sentiment_label_ar := "positive" }

/-- A raw row at the exact coordinate boundary (lat 90, lng 180). -/
def goodRow : RawPlace := { rawEmpty with
  place_id := some "x"
  lat := JVal.jnum (JNum.fin (natF 90))
  lng := JVal.jnum (JNum.fin (natF 180)) }

/-- A raw row just outside the boundary (lat 90.0001). -/
def badRow : RawPlace := { rawEmpty with
  place_id := some "x"
  lat := JVal.jnum (JNum.fin (qF 900001 10000))
  lng := JVal.jnum (JNum.fin f0) }

/-- A similarity row with finite but out-of-range latitude 999. -/
def simRow999 : RawPlace := { rawEmpty with
  place_id := some "x"
  lat := JVal.jnum (JNum.fin (natF 999))
  lng := JVal.jnum (JNum.fin f0) }

/-- A well-formed similarity row. -/
def simRowOk : RawPlace := { rawEmpty with
  place_id := some "y"
  lat := JVal.jnum (JNum.fin (natF 24))
  lng := JVal.jnum (JNum.fin (natF 46)) }

/-- The heat rule reading the raw review count. -/
def heatRuleRC : String := "return (p.rating_count ?? 0);"

/-- A record with 500 reviews (review count at the default blend's
saturation point). -/
def rec500 : Place := { basePlace with rating_count := some (JNum.fin (natF 500)) }

/-- A similarity-mode filter state with a district selected before
entering similarity mode. -/
def simState : FilterState := { baseState with
  similarMode := true
  district := "downtown" }

/-- A record from another district. -/
def otherDistrictPlace : Place := { basePlace with district := some "uptown" }

/-- Record with trust score 2 (must_go key comparisons). -/
def c6hi : Place := { basePlace with
  bayes2_score := some (JNum.fin (natF 2))
  trust := some (JNum.fin (natF 2)) }

/-- Record with trust score 1. -/
def c6lo : Place := { basePlace with
  bayes2_score := some (JNum.fin (natF 1))
  trust := some (JNum.fin (natF 1)) }

theorem den_cast_pos (f : Frac) : (0 : ℚ) < (f.den : ℚ) := by
  exact_mod_cast f.den_pos

theorem Frac.Slt_iff_toRat (f g : Frac) : Frac.Slt f g ↔ f.toRat < g.toRat := by
  unfold Frac.Slt Frac.toRat
  rw [div_lt_div_iff₀ (den_cast_pos f) (den_cast_pos g)]
  constructor
  · intro h; exact_mod_cast h
  · intro h; exact_mod_cast h

theorem Frac.Sle_iff_toRat (f g : Frac) : Frac.Sle f g ↔ f.toRat ≤ g.toRat := by
  unfold Frac.Sle Frac.toRat
  rw [div_le_div_iff₀ (den_cast_pos f) (den_cast_pos g)]
  constructor
  · intro h; exact_mod_cast h
  · intro h; exact_mod_cast h

theorem Frac.Seq_iff_toRat (f g : Frac) : Frac.Seq f g ↔ f.toRat = g.toRat := by
  unfold Frac.Seq Frac.toRat
  rw [div_eq_div_iff (ne_of_gt (den_cast_pos f)) (ne_of_gt (den_cast_pos g))]
  constructor
  · intro h; exact_mod_cast h
  · intro h; exact_mod_cast h

theorem fltB_iff (f g : Frac) : fltB f g = true ↔ f.toRat < g.toRat := by
  unfold fltB
  rw [decide_eq_true_iff]
  exact Frac.Slt_iff_toRat f g

theorem fleB_iff (f g : Frac) : fleB f g = true ↔ f.toRat ≤ g.toRat := by
  unfold fleB
  rw [decide_eq_true_iff]
  exact Frac.Sle_iff_toRat f g

theorem intF_toRat (n : Int) : (intF n).toRat = (n : ℚ) := by
  unfold intF Frac.toRat
  norm_num

theorem natF_toRat (n : Nat) : (natF n).toRat = (n : ℚ) := by
  unfold natF Frac.toRat
  norm_num

theorem f0_toRat : f0.toRat = 0 := by
  unfold f0
  rw [intF_toRat]
  norm_num

theorem f1_toRat : f1.toRat = 1 := by
  unfold f1
  rw [intF_toRat]
  norm_num

theorem fHalf_toRat : fHalf.toRat = 1 / 2 := by
  unfold fHalf Frac.toRat
  norm_num

theorem fsub_num (f g : Frac) : (fsub f g).num = f.num * (g.den : Int) - g.num * (f.den : Int) :=
  rfl

theorem fsub_num_neg_iff (f g : Frac) : (fsub f g).num < 0 ↔ f.toRat < g.toRat := by
  rw [fsub_num, ← Frac.Slt_iff_toRat]
  unfold Frac.Slt
  omega

theorem fsub_num_zero_iff (f g : Frac) : (fsub f g).num = 0 ↔ f.toRat = g.toRat := by
  rw [fsub_num, ← Frac.Seq_iff_toRat]
  unfold Frac.Seq
  omega

theorem fsub_num_nonpos_iff (f g : Frac) : (fsub f g).num ≤ 0 ↔ f.toRat ≤ g.toRat := by
  rw [fsub_num, ← Frac.Sle_iff_toRat]
  unfold Frac.Sle
  omega

theorem fnum_neg_iff (f : Frac) : f.num < 0 ↔ f.toRat < 0 := by
  have h := Frac.Slt_iff_toRat f f0
  rw [f0_toRat] at h
  rw [← h]
  simp [Frac.Slt, f0, intF]

theorem fnum_zero_iff (f : Frac) : f.num = 0 ↔ f.toRat = 0 := by
  have h := Frac.Seq_iff_toRat f f0
  rw [f0_toRat] at h
  rw [← h]
  simp [Frac.Seq, f0, intF]

theorem fleB_eq_not_fltB (f g : Frac) : fleB f g = !fltB g f := by
  unfold fleB fltB Frac.Sle Frac.Slt
  by_cases h : f.num * (g.den : Int) ≤ g.num * (f.den : Int)
  · rw [decide_eq_true h]
    have h2 : ¬ (g.num * (f.den : Int) < f.num * (g.den : Int)) := not_lt.mpr h
    rw [decide_eq_false h2]
    rfl
  · rw [decide_eq_false h]
    have h2 : g.num * (f.den : Int) < f.num * (g.den : Int) := not_le.mp h
    rw [decide_eq_true h2]
    rfl

theorem validate_eq (p : RawPlace) :
    validatePlaceData p = (rawHasIdentity p && rawCoordsValidB p) := by
  simp only [validatePlaceData, rawHasIdentity, rawCoordsValidB]
  generalize toNumber (jvCoalesce p.lat p.latitude) = la
  generalize toNumber (jvCoalesce p.lng p.longitude) = lb
  cases truthyS p.place_id <;> cases truthyS p.id <;> cases truthyS p.gid <;>
    rcases la with _ | _ | _ | qa <;> rcases lb with _ | _ | _ | qb <;>
    simp [jnIsFinite, jnLtB, jnGtB, jnLeB, fleB_eq_not_fltB]

theorem coords_of_valid (p : RawPlace) (h : rawCoordsValidB p = true) :
    (∃ qa : Frac, toNumber (jvCoalesce p.lat p.latitude) = JNum.fin qa ∧
      -90 ≤ qa.toRat ∧ qa.toRat ≤ 90) ∧
    (∃ qb : Frac, toNumber (jvCoalesce p.lng p.longitude) = JNum.fin qb ∧
      -180 ≤ qb.toRat ∧ qb.toRat ≤ 180) := by
  unfold rawCoordsValidB at h
  rcases h1 : toNumber (jvCoalesce p.lat p.latitude) with _ | _ | _ | qa <;>
    rcases h2 : toNumber (jvCoalesce p.lng p.longitude) with _ | _ | _ | qb <;>
    rw [h1, h2] at h <;> simp at h
  obtain ⟨⟨⟨ha, hb⟩, hc⟩, hd⟩ := h
  rw [fleB_iff, intF_toRat] at ha hc
  rw [fleB_iff, intF_toRat] at hb hd
  refine ⟨⟨qa, rfl, ?_, ?_⟩, ⟨qb, rfl, ?_, ?_⟩⟩
  · exact le_trans (by norm_num) ha
  · exact le_trans hb (by norm_num)
  · exact le_trans (by norm_num) hc
  · exact le_trans hd (by norm_num)

theorem id_nonempty_of_identity (rnd : String) (p : RawPlace)
    (h : rawHasIdentity p = true) :
    jsOrStr p.place_id (jsOrStr p.id (jsOrStr p.gid rnd)) ≠ "" := by
  unfold rawHasIdentity truthyS at h
  unfold jsOrStr
  rcases hp : p.place_id with _ | s1 <;> rcases hi : p.id with _ | s2 <;>
    rcases hg : p.gid with _ | s3 <;> simp_all <;> split_ifs <;> simp_all

/-- C1.  After a places load, every retained record has finite
coordinates within `[-90, 90] × [-180, 180]` and a non-empty `id`; a
raw row whose coerced coordinates are non-finite or out of range, or
that has no truthy identity field, never survives validation; the
boundary row (lat 90, lng 180) is accepted and a row with lat 90.0001
is rejected. -/
theorem places_load_invariant :
    (∀ (rnd : String) (results : List RawPlace), ∀ rec ∈ loadPlaces rnd results,
      (∃ qa : Frac, rec.lat = JNum.fin qa ∧ -90 ≤ qa.toRat ∧ qa.toRat ≤ 90) ∧
      (∃ qb : Frac, rec.lng = JNum.fin qb ∧ -180 ≤ qb.toRat ∧ qb.toRat ≤ 180) ∧
      rec.id ≠ "") ∧
    (∀ (results : List RawPlace) (raw : RawPlace),
      rawCoordsValidB raw = false ∨ rawHasIdentity raw = false →
      raw ∉ validResults results) ∧
    validatePlaceData goodRow = true ∧ validatePlaceData badRow = false := by
  refine ⟨?_, ?_, by decide, by decide⟩
  · intro rnd results rec hrec
    unfold loadPlaces at hrec
    obtain ⟨raw, hraw, hmap⟩ := List.mem_map.mp hrec
    unfold validResults at hraw
    have hv : validatePlaceData raw = true := (List.mem_filter.mp hraw).2
    rw [validate_eq, Bool.and_eq_true] at hv
    obtain ⟨hid, hco⟩ := hv
    obtain ⟨⟨qa, hqa, h1, h2⟩, ⟨qb, hqb, h3, h4⟩⟩ := coords_of_valid raw hco
    subst hmap
    refine ⟨⟨qa, ?_, h1, h2⟩, ⟨qb, ?_, h3, h4⟩, ?_⟩
    · show toNumber (jvCoalesce raw.lat raw.latitude) = JNum.fin qa
      exact hqa
    · show toNumber (jvCoalesce raw.lng raw.longitude) = JNum.fin qb
      exact hqb
    · show jsOrStr raw.place_id (jsOrStr raw.id (jsOrStr raw.gid rnd)) ≠ ""
      exact id_nonempty_of_identity rnd raw hid
  · intro results raw hbad hmem
    unfold validResults at hmem
    have hv : validatePlaceData raw = true := (List.mem_filter.mp hmem).2
    rw [validate_eq, Bool.and_eq_true] at hv
    rcases hbad with h | h
    · rw [h] at hv; exact absurd hv.2 (by simp)
    · rw [h] at hv; exact absurd hv.1 (by simp)

theorem places_load_invariant_witness :
    (∃ qa : Frac, (normalizePlace "r" goodRow).lat = JNum.fin qa ∧
      -90 ≤ qa.toRat ∧ qa.toRat ≤ 90) ∧
    badRow ∉ validResults [badRow] := by
  have h1 := places_load_invariant.1 "r" [goodRow]
    (normalizePlace "r" goodRow) (by decide)
  exact ⟨h1.1, places_load_invariant.2.1 [badRow] badRow (Or.inl (by decide))⟩

/-- C2.  A rule text in which none of the four recognised shapes occurs
compiles to the always-true predicate (fail-open).  `compilePredicate`
is a total Lean function, so the translation also witnesses that no
exception escapes: the source's `catch` branch (which likewise returns
the always-true predicate) is unreachable. -/
theorem compilePredicate_fail_open :
    ∀ code : String,
      scanDiscover (trimL code.data) = none →
      scanMustGo (trimL code.data) = none →
      scanTopRated (trimL code.data) = none →
      scanRaqi (trimL code.data) = none →
      ∀ p : Place, compilePredicate code p = true := by
  intro code h1 h2 h3 h4 p
  unfold compilePredicate
  split_ifs with he
  · rfl
  · simp only [h1, h2, h3, h4]

theorem compilePredicate_fail_open_witness :
    compilePredicate gibberishRule basePlace = true :=
  compilePredicate_fail_open gibberishRule (by decide) (by decide) (by decide)
    (by decide) basePlace

/-- C3.  A heat rule text that does not match the field-read-with-
default shape, or that reads a field outside the whitelist, compiles to
the constant-zero weight function (fail-closed); in particular
`"return p.randomField"` does. -/
theorem compileHeat_fail_closed :
    (∀ code : String, scanHeat (trimL code.data) = none →
      ∀ p : Place, compileHeat code p = JNum.fin f0) ∧
    (∀ (code : String) (caps : List Char × List Char),
      scanHeat (trimL code.data) = some caps →
      allowedFields.contains (String.mk caps.1) = false →
      ∀ p : Place, compileHeat code p = JNum.fin f0) ∧
    (∀ p : Place, compileHeat "return p.randomField" p = JNum.fin f0) := by
  refine ⟨?_, ?_, ?_⟩
  · intro code h p
    unfold compileHeat
    split_ifs with he
    · rfl
    · simp only [h]
  · intro code caps h hw p
    unfold compileHeat
    split_ifs with he
    · rfl
    · simp only [h]
      rw [hw]
      rfl
  · intro p
    unfold compileHeat
    split_ifs with he
    · rfl
    · have hs : scanHeat (trimL ("return p.randomField" : String).data) = none := by decide
      simp only [hs]

theorem compileHeat_fail_closed_witness :
    compileHeat "rating stuff" basePlace = JNum.fin f0 ∧
    compileHeat "return (p.name ?? 0);" basePlace = JNum.fin f0 := by
  constructor
  · exact compileHeat_fail_closed.1 "rating stuff" (by decide) basePlace
  · exact compileHeat_fail_closed.2.1 "return (p.name ?? 0);" ("name".data, "0".data)
      (by decide) (by decide) basePlace

/-- C8.  Whenever the discover (range-capped) pattern matches a rule
text, `compilePredicate` compiles the discover shape — the simple
threshold shape is never chosen, even though its pattern also matches
(the scenario-2 rule text witnesses this) — and on the scenario-2 rule
a rating-4.3 / 100-review / positive-sentiment record passes while the
same record with 500 reviews fails. -/
theorem discover_shape_priority :
    (∀ (code : String) (caps : List Char × List Char × List Char × List Char),
      scanDiscover (trimL code.data) = some caps →
      compilePredicate code = discoverPred caps) ∧
    scanTopRated (trimL rule2.data) ≠ none ∧
    compilePredicate rule2 recA = true ∧
    compilePredicate rule2 recB = false := by
  refine ⟨?_, by decide, by decide, by decide⟩
  intro code caps h
  funext p
  unfold compilePredicate
  split_ifs with he
  · exfalso
    simp only [Bool.or_eq_true, decide_eq_true_eq] at he
    rcases he with he | he <;> rw [he] at h
    · exact Option.noConfusion h
    · have : scanDiscover ("return true;" : String).data = none := by decide
      rw [this] at h
      exact Option.noConfusion h
  · simp only [h]

theorem discover_shape_priority_witness :
    compilePredicate rule2 =
      discoverPred ("4.1".data, "30".data, "180".data, "negative".data) :=
  discover_shape_priority.1 rule2 _ (by decide)

/-- C10.  A rule compiled through the must_go shape substitutes `0.50`
(not `0`) for a missing trust score: with `bayes2_score` absent the
trust conjunct is evaluated as `0.50 >= B`, so the record passes every
threshold `B ≤ 0.5`; the other numeric shapes substitute `0` (shown for
the top_rated shape's rating read). -/
theorem mustgo_halftrust_default :
    (∀ (code : String) (caps : List Char × List Char × List Char),
      scanDiscover (trimL code.data) = none →
      scanMustGo (trimL code.data) = some caps →
      compilePredicate code = mustGoPred caps) ∧
    (∀ (caps : List Char × List Char × List Char) (p : Place),
      p.bayes2_score = none →
      mustGoPred caps p =
        (jnGeOptF (JNum.fin fHalf) (parseFloatF caps.1) &&
         jnGeB ((p.rating_count).getD (JNum.fin f0)) (JNum.fin (natF (parseIntNat caps.2.1))) &&
         (p.sentiment_label_ar != String.mk caps.2.2))) ∧
    (∀ (bs : List Char) (q : Frac), parseFloatF bs = some q → q.toRat ≤ 1 / 2 →
      jnGeOptF (JNum.fin fHalf) (parseFloatF bs) = true) ∧
    (∀ (caps : List Char × List Char) (p : Place),
      p.rating = none →
      topRatedPred caps p =
        (jnGeOptF (JNum.fin f0) (parseFloatF caps.1) &&
         jnGeB ((p.rating_count).getD (JNum.fin f0)) (JNum.fin (natF (parseIntNat caps.2))))) := by
  refine ⟨?_, ?_, ?_, ?_⟩
  · intro code caps h1 h2
    funext p
    unfold compilePredicate
    split_ifs with he
    · exfalso
      simp only [Bool.or_eq_true, decide_eq_true_eq] at he
      rcases he with he | he <;> rw [he] at h2
      · exact Option.noConfusion h2
      · have : scanMustGo ("return true;" : String).data = none := by decide
        rw [this] at h2
        exact Option.noConfusion h2
    · simp only [h1, h2]
  · intro caps p hb
    unfold mustGoPred
    rw [hb]
    rfl
  · intro bs q hq hle
    rw [hq]
    unfold jnGeOptF jnGeB jnLeB
    rw [fleB_iff, fHalf_toRat]
    exact hle
  · intro caps p hr
    unfold topRatedPred
    rw [hr]
    rfl

theorem mustgo_halftrust_default_witness :
    compilePredicate mgRule recMG = true ∧ recMG.bayes2_score = none := by
  have h := mustgo_halftrust_default.1 mgRule ("0.45".data, "50".data, "negative".data)
    (by decide) (by decide)
  constructor
  · rw [h]; decide
  · rfl

theorem jnIsFinite_iff (x : JNum) : jnIsFinite x = true ↔ ∃ q : Frac, x = JNum.fin q := by
  rcases x with _ | _ | _ | q <;> simp [jnIsFinite]

theorem fminF_toRat_le_left (f g : Frac) : (fminF f g).toRat ≤ f.toRat := by
  unfold fminF
  split_ifs with h
  · exact le_of_lt ((fltB_iff g f).mp h)
  · exact le_refl _

theorem le_fmaxF_toRat_left (f g : Frac) : f.toRat ≤ (fmaxF f g).toRat := by
  unfold fmaxF
  split_ifs with h
  · exact le_of_lt ((fltB_iff f g).mp h)
  · exact le_refl _

theorem fmaxF_toRat_le (f g : Frac) (c : ℚ) (hf : f.toRat ≤ c) (hg : g.toRat ≤ c) :
    (fmaxF f g).toRat ≤ c := by
  unfold fmaxF
  split_ifs with h
  · exact hg
  · exact hf

theorem clamp01_bounds (x : JNum) :
    jnMax (JNum.fin f0) (jnMin (JNum.fin f1) x) = JNum.nan ∨
    ∃ q : Frac, jnMax (JNum.fin f0) (jnMin (JNum.fin f1) x) = JNum.fin q ∧
      0 ≤ q.toRat ∧ q.toRat ≤ 1 := by
  rcases x with _ | _ | _ | q
  · exact Or.inl rfl
  · refine Or.inr ⟨f1, rfl, ?_, ?_⟩
    · rw [f1_toRat]; norm_num
    · rw [f1_toRat]
  · refine Or.inr ⟨f0, rfl, ?_, ?_⟩
    · rw [f0_toRat]
    · rw [f0_toRat]; norm_num
  · refine Or.inr ⟨fmaxF f0 (fminF f1 q), rfl, ?_, ?_⟩
    · have := le_fmaxF_toRat_left f0 (fminF f1 q)
      rw [f0_toRat] at this
      exact this
    · refine fmaxF_toRat_le f0 (fminF f1 q) 1 ?_ ?_
      · rw [f0_toRat]; norm_num
      · have := fminF_toRat_le_left f1 q
        rw [f1_toRat] at this
        exact this

theorem heatDefaultFn_cases (p : Place) :
    heatDefaultFn p = JNum.nan ∨
    ∃ q : Frac, heatDefaultFn p = JNum.fin q ∧ 0 ≤ q.toRat ∧ q.toRat ≤ 1 := by
  unfold heatDefaultFn
  exact clamp01_bounds _

/-- C4 (amended).  When no insight heat function is active the pushed
weight is the default blend, whose review-volume term and final sum are
clamped, so it always lies in `[0, 1]` (a `NaN` evaluation is replaced
by `0.2`, also inside the range).  The trust term is not clamped before
blending, and a compiled insight heat function's weight is the raw
field value, not clamped at all — see the counterexample. -/
theorem default_heat_weight_bounds :
    ∀ p : Place, 0 ≤ (updateHeatWeight none p).toRat ∧ (updateHeatWeight none p).toRat ≤ 1 := by
  intro p
  have hcases := heatDefaultFn_cases p
  unfold updateHeatWeight
  simp only [Option.getD]
  rcases hcases with h | ⟨q, h, h0, h1⟩ <;> rw [h]
  · constructor <;> norm_num [Frac.toRat]
  · exact ⟨h0, h1⟩

/-- C4 counterexample: with the (whitelisted) review-count heat rule
active, a record with 500 reviews gets heat weight 500 — far outside
`[0, 1]`, contradicting the claim that the evaluator's weight is always
within `[0, 1]` regardless of field values. -/
theorem heat_weight_unclamped_counterexample :
    updateHeatWeight (some (compileHeat heatRuleRC)) rec500 = natF 500 ∧
    ¬ ((natF 500).toRat ≤ 1) := by
  constructor
  · decide
  · rw [natF_toRat]; norm_num

/-- C9 (amended).  Every normalized similarity entry has a non-empty
identifier different from the anchor's, and finite coordinates.  (The
±90/±180 range check of the dataset normalizer is NOT re-applied — see
the counterexample.) -/
theorem similar_results_normalized :
    ∀ (arr : List RawPlace) (anchorId : String),
      ∀ p ∈ normalizeSimilarResults arr anchorId,
        p.id ≠ "" ∧ (∃ qa : Frac, p.lat = JNum.fin qa) ∧
        (∃ qb : Frac, p.lng = JNum.fin qb) ∧ p.id ≠ anchorId := by
  intro arr anchorId p hp
  unfold normalizeSimilarResults at hp
  have hmem := (List.mem_filter.mp hp).1
  have hfin := (List.mem_filter.mp hp).2
  obtain ⟨x, hx, hmap⟩ := List.mem_map.mp hmem
  have hcond := (List.mem_filter.mp hx).2
  simp only [Bool.and_eq_true, Bool.or_eq_true, bne_iff_ne] at hcond
  obtain ⟨hid, hne⟩ := hcond
  subst hmap
  simp only [Bool.and_eq_true] at hfin
  refine ⟨?_, ?_, ?_, hne⟩
  · show simId x ≠ ""
    unfold simId firstTruthy2 jsTemplate
    split_ifs with ht
    · unfold truthyS at ht
      rcases hpp : x.place_id with _ | s1
      · rw [hpp] at ht; exact absurd ht (by simp)
      · rw [hpp] at ht; simpa using ht
    · rcases hid with hidl | hidr
      · exact absurd hidl ht
      · unfold truthyS at hidr
        rcases hii : x.id with _ | s2
        · rw [hii] at hidr; exact absurd hidr (by simp)
        · rw [hii] at hidr; simpa using hidr
  · exact (jnIsFinite_iff _).mp hfin.1
  · exact (jnIsFinite_iff _).mp hfin.2

theorem similar_results_normalized_witness :
    ((normalizeSimilarResults [simRowOk] "a").headD basePlace).id ≠ "" ∧
    ((normalizeSimilarResults [simRowOk] "a").headD basePlace).id ≠ "a" := by
  have h := similar_results_normalized [simRowOk] "a"
    ((normalizeSimilarResults [simRowOk] "a").headD basePlace) (by decide)
  exact ⟨h.1, h.2.2.2⟩

/-- C9 counterexample: a similarity row with latitude 999 fails the
dataset normalizer's geographic validation, but is nevertheless
retained (with its out-of-range latitude) by `normalizeSimilarResults`,
which checks finiteness only. -/
theorem similar_results_range_unchecked :
    validatePlaceData simRow999 = false ∧
    (normalizeSimilarResults [simRow999] "a").length = 1 ∧
    (normalizeSimilarResults [simRow999] "a").map (fun p => p.lat) = [JNum.fin (natF 999)] :=
  ⟨by decide, by decide, by decide⟩

theorem fsub_num_neg_slt (x y : Frac) : (fsub x y).num < 0 ↔ Frac.Slt x y := by
  rw [fsub_num]
  unfold Frac.Slt
  omega

theorem fsub_num_zero_seq (x y : Frac) : (fsub x y).num = 0 ↔ Frac.Seq x y := by
  rw [fsub_num]
  unfold Frac.Seq
  omega

theorem fsub_num_nonpos_sle (x y : Frac) : (fsub x y).num ≤ 0 ↔ Frac.Sle x y := by
  rw [fsub_num]
  unfold Frac.Sle
  omega

theorem chain3_char (d1 d2 d3 : Frac) :
    (((if d1.num ≠ 0 then d1 else if d2.num ≠ 0 then d2 else d3).num < 0) ↔
      (d1.num < 0 ∨ (d1.num = 0 ∧ (d2.num < 0 ∨ (d2.num = 0 ∧ d3.num < 0))))) ∧
    (((if d1.num ≠ 0 then d1 else if d2.num ≠ 0 then d2 else d3).num = 0) ↔
      (d1.num = 0 ∧ d2.num = 0 ∧ d3.num = 0)) ∧
    (((if d1.num ≠ 0 then d1 else if d2.num ≠ 0 then d2 else d3).num ≤ 0) ↔
      (d1.num < 0 ∨ (d1.num = 0 ∧ (d2.num < 0 ∨ (d2.num = 0 ∧ d3.num ≤ 0))))) := by
  split_ifs with h1 h2 <;> refine ⟨?_, ?_, ?_⟩ <;> omega

theorem chain2_char (d1 d2 : Frac) :
    (((if d1.num ≠ 0 then d1 else d2).num < 0) ↔
      (d1.num < 0 ∨ (d1.num = 0 ∧ d2.num < 0))) ∧
    (((if d1.num ≠ 0 then d1 else d2).num = 0) ↔ (d1.num = 0 ∧ d2.num = 0)) ∧
    (((if d1.num ≠ 0 then d1 else d2).num ≤ 0) ↔
      (d1.num < 0 ∨ (d1.num = 0 ∧ d2.num ≤ 0))) := by
  split_ifs with h1 <;> refine ⟨?_, ?_, ?_⟩ <;> omega

theorem sortBySpec_mustgo (a b : Place) :
    sortBySpec a b "special:mustgo" =
      (if (fsub (num b.bayes2_score) (num a.bayes2_score)).num ≠ 0 then
        fsub (num b.bayes2_score) (num a.bayes2_score)
       else if (fsub (num b.rating_count) (num a.rating_count)).num ≠ 0 then
        fsub (num b.rating_count) (num a.rating_count)
       else fsub (num b.rating) (num a.rating)) := rfl

theorem sortBySpec_default (a b : Place) (spec : String)
    (h1 : leadsWith "desc:".data spec.data = false)
    (h2 : leadsWith "asc:".data spec.data = false)
    (h3 : spec ≠ "special:mustgo") :
    sortBySpec a b spec =
      (if (fsub (num b.trust) (num a.trust)).num ≠ 0 then fsub (num b.trust) (num a.trust)
       else fsub (num b.rating_count) (num a.rating_count)) := by
  unfold sortBySpec
  simp only [h1, h2, Bool.false_eq_true, if_false, if_neg h3]

/-- C6.  The must-go comparator sorts negative (a before b) exactly
when a's trust score is semantically greater, or equal and a's review
count greater, or both equal and a's rating greater; it is zero exactly
when all three key pairs are semantically equal.  Any unrecognised
directive falls back to descending `trust` tie-broken by descending
review count.  The `Slt`/`Seq` relations coincide with the rational
order of the exact values, and `num` coerces missing and non-finite
field values to zero, so every comparison is over genuine (never `NaN`)
numbers. -/
theorem comparator_orderings :
    (∀ a b : Place,
      ((sortBySpec a b "special:mustgo").num < 0 ↔
        (Frac.Slt (num b.bayes2_score) (num a.bayes2_score) ∨
         (Frac.Seq (num b.bayes2_score) (num a.bayes2_score) ∧
          (Frac.Slt (num b.rating_count) (num a.rating_count) ∨
           (Frac.Seq (num b.rating_count) (num a.rating_count) ∧
            Frac.Slt (num b.rating) (num a.rating)))))) ∧
      ((sortBySpec a b "special:mustgo").num = 0 ↔
        (Frac.Seq (num b.bayes2_score) (num a.bayes2_score) ∧
         Frac.Seq (num b.rating_count) (num a.rating_count) ∧
         Frac.Seq (num b.rating) (num a.rating)))) ∧
    (∀ (a b : Place) (spec : String),
      leadsWith "desc:".data spec.data = false →
      leadsWith "asc:".data spec.data = false →
      spec ≠ "special:mustgo" →
      (((sortBySpec a b spec).num < 0 ↔
        (Frac.Slt (num b.trust) (num a.trust) ∨
         (Frac.Seq (num b.trust) (num a.trust) ∧
          Frac.Slt (num b.rating_count) (num a.rating_count)))) ∧
       ((sortBySpec a b spec).num = 0 ↔
        (Frac.Seq (num b.trust) (num a.trust) ∧
         Frac.Seq (num b.rating_count) (num a.rating_count))))) ∧
    (∀ f g : Frac, (Frac.Slt f g ↔ f.toRat < g.toRat) ∧ (Frac.Seq f g ↔ f.toRat = g.toRat)) ∧
    (∀ f : Frac, (f.num < 0 ↔ f.toRat < 0) ∧ (f.num = 0 ↔ f.toRat = 0)) ∧
    (num none = f0 ∧ num (some JNum.nan) = f0 ∧ num (some JNum.inf) = f0 ∧
     num (some JNum.ninf) = f0 ∧ ∀ q : Frac, num (some (JNum.fin q)) = q) := by
  refine ⟨?_, ?_, ?_, ?_, rfl, rfl, rfl, rfl, fun q => rfl⟩
  · intro a b
    rw [sortBySpec_mustgo]
    constructor
    · rw [(chain3_char _ _ _).1]
      simp only [fsub_num_neg_slt, fsub_num_zero_seq]
    · rw [(chain3_char _ _ _).2.1]
      simp only [fsub_num_zero_seq]
  · intro a b spec h1 h2 h3
    rw [sortBySpec_default a b spec h1 h2 h3]
    constructor
    · rw [(chain2_char _ _).1]
      simp only [fsub_num_neg_slt, fsub_num_zero_seq]
    · rw [(chain2_char _ _).2.1]
      simp only [fsub_num_zero_seq]
  · intro f g
    exact ⟨Frac.Slt_iff_toRat f g, Frac.Seq_iff_toRat f g⟩
  · intro f
    exact ⟨fnum_neg_iff f, fnum_zero_iff f⟩

theorem comparator_orderings_witness :
    (sortBySpec c6hi c6lo "special:mustgo").num < 0 ∧
    (sortBySpec c6hi c6lo "").num < 0 := by
  constructor
  · exact ((comparator_orderings.1 c6hi c6lo).1).mpr (Or.inl (by decide))
  · exact ((comparator_orderings.2.1 c6hi c6lo "" (by decide) (by decide)
      (by decide)).1).mpr (Or.inl (by decide))

theorem lexQle_total (x y : ℚ × ℚ × ℚ) : lexQle x y ∨ lexQle y x := by
  unfold lexQle
  rcases lt_trichotomy x.1 y.1 with h | h | h
  · exact Or.inl (Or.inl h)
  · rcases lt_trichotomy x.2.1 y.2.1 with h2 | h2 | h2
    · exact Or.inl (Or.inr ⟨h, Or.inl h2⟩)
    · rcases le_total x.2.2 y.2.2 with h3 | h3
      · exact Or.inl (Or.inr ⟨h, Or.inr ⟨h2, h3⟩⟩)
      · exact Or.inr (Or.inr ⟨h.symm, Or.inr ⟨h2.symm, h3⟩⟩)
    · exact Or.inr (Or.inr ⟨h.symm, Or.inl h2⟩)
  · exact Or.inr (Or.inl h)

theorem lexQle_trans (x y z : ℚ × ℚ × ℚ) :
    lexQle x y → lexQle y z → lexQle x z := by
  unfold lexQle
  rintro (h1 | ⟨e1, h1⟩) (h2 | ⟨e2, h2⟩)
  · exact Or.inl (lt_trans h1 h2)
  · exact Or.inl (e2 ▸ h1)
  · exact Or.inl (e1 ▸ h2)
  · refine Or.inr ⟨e1.trans e2, ?_⟩
    rcases h1 with h1 | ⟨f1, h1⟩ <;> rcases h2 with h2 | ⟨f2, h2⟩
    · exact Or.inl (lt_trans h1 h2)
    · exact Or.inl (f2 ▸ h1)
    · exact Or.inl (f1 ▸ h2)
    · exact Or.inr ⟨f1.trans f2, le_trans h1 h2⟩

theorem cmpLe_iff_lex (spec : String) (a b : Place) :
    cmpLe spec a b ↔ lexQle (sortKey spec b) (sortKey spec a) := by
  unfold cmpLe sortKey
  by_cases hd : leadsWith "desc:".data spec.data = true
  · unfold sortBySpec
    simp only [hd, if_true]
    rw [fsub_num_nonpos_iff]
    unfold lexQle
    dsimp only
    constructor
    · intro h
      rcases lt_or_eq_of_le h with h2 | h2
      · exact Or.inl h2
      · exact Or.inr ⟨h2, Or.inr ⟨rfl, le_refl _⟩⟩
    · rintro (h | ⟨h, _⟩)
      · exact le_of_lt h
      · exact le_of_eq h
  · by_cases ha : leadsWith "asc:".data spec.data = true
    · unfold sortBySpec
      simp only [hd, ha, if_true, Bool.false_eq_true, if_false]
      rw [fsub_num_nonpos_iff]
      unfold lexQle
      dsimp only
      constructor
      · intro h
        rcases lt_or_eq_of_le h with h2 | h2
        · exact Or.inl (neg_lt_neg h2)
        · exact Or.inr ⟨by rw [h2], Or.inr ⟨rfl, le_refl _⟩⟩
      · rintro (h | ⟨h, _⟩)
        · exact le_of_lt (neg_lt_neg_iff.mp h)
        · exact le_of_eq (neg_inj.mp h).symm
    · by_cases hm : spec = "special:mustgo"
      · subst hm
        rw [sortBySpec_mustgo, (chain3_char _ _ _).2.2]
        simp only [hd, ha, Bool.false_eq_true, if_false, if_pos rfl, if_true]
        unfold lexQle
        simp only [fsub_num_neg_iff, fsub_num_zero_iff, fsub_num_nonpos_iff]
      · rw [sortBySpec_default a b spec (Bool.eq_false_iff.mpr hd) (Bool.eq_false_iff.mpr ha) hm,
          (chain2_char _ _).2.2]
        simp only [hd, ha, Bool.false_eq_true, if_false, if_neg hm]
        unfold lexQle
        dsimp only
        simp only [fsub_num_neg_iff, fsub_num_zero_iff, fsub_num_nonpos_iff]
        constructor
        · rintro (h | ⟨h, h2⟩)
          · exact Or.inl h
          · rcases lt_or_eq_of_le h2 with h3 | h3
            · exact Or.inr ⟨h, Or.inl h3⟩
            · exact Or.inr ⟨h, Or.inr ⟨h3, le_refl _⟩⟩
        · rintro (h | ⟨h, h2 | ⟨h2, _⟩⟩)
          · exact Or.inl h
          · exact Or.inr ⟨h, le_of_lt h2⟩
          · exact Or.inr ⟨h, le_of_eq h2⟩

theorem cmpLe_total (spec : String) : ∀ a b : Place, cmpLe spec a b ∨ cmpLe spec b a := by
  intro a b
  rcases lexQle_total (sortKey spec b) (sortKey spec a) with h | h
  · exact Or.inl ((cmpLe_iff_lex spec a b).mpr h)
  · exact Or.inr ((cmpLe_iff_lex spec b a).mpr h)

theorem cmpLe_trans (spec : String) :
    ∀ a b c : Place, cmpLe spec a b → cmpLe spec b c → cmpLe spec a c := by
  intro a b c h1 h2
  exact (cmpLe_iff_lex spec a c).mpr
    (lexQle_trans _ _ _ ((cmpLe_iff_lex spec b c).mp h2) ((cmpLe_iff_lex spec a b).mp h1))

theorem applyFilters_cons (f : α → Bool) (fs : List (α → Bool)) (l : List α) :
    applyFilters (f :: fs) l = applyFilters fs (l.filter f) := rfl

theorem applyFilters_subset (fs : List (α → Bool)) (l : List α) (x : α)
    (h : x ∈ applyFilters fs l) : x ∈ l := by
  induction fs generalizing l with
  | nil => exact h
  | cons f fs ih =>
    rw [applyFilters_cons] at h
    exact List.mem_of_mem_filter (ih (l.filter f) h)

theorem applyFilters_props (fs : List (α → Bool)) (l : List α) (x : α)
    (h : x ∈ applyFilters fs l) : ∀ f ∈ fs, f x = true := by
  induction fs generalizing l with
  | nil => intro f hf; cases hf
  | cons g fs ih =>
    intro f hf
    rw [applyFilters_cons] at h
    rcases List.mem_cons.mp hf with rfl | hf2
    · exact (List.mem_filter.mp (applyFilters_subset fs (l.filter f) x h)).2
    · exact ih (l.filter g) h f hf2

theorem applyFilters_eq_self (fs : List (α → Bool)) (l : List α)
    (h : ∀ x ∈ l, ∀ f ∈ fs, f x = true) : applyFilters fs l = l := by
  induction fs generalizing l with
  | nil => rfl
  | cons g fs ih =>
    rw [applyFilters_cons]
    have hg : l.filter g = l :=
      List.filter_eq_self.mpr (fun x hx => h x hx g (List.mem_cons_self g fs))
    rw [hg]
    exact ih l (fun x hx f hf => h x hx f (List.mem_cons_of_mem g hf))

theorem filterData_eq (insights : List Insight) (st : FilterState) (rows : List Place) :
    filterData insights st rows =
      (applyFilters (stageList insights st) rows).insertionSort
        (cmpLe (resolveInsight insights st.insight).sort) := rfl

/-- C7.  The filter/sort pipeline is idempotent: its filters are pure
predicates, every element of the output already satisfies them, and a
second stable sort of an already-sorted list leaves it unchanged, so
re-applying `filterData` to its own output reproduces it exactly.  (In
the functional embedding the input list is untouched by construction,
matching the source, where the `filter` chain allocates a fresh array
that `sort` mutates in place.) -/
theorem pipeline_idempotent :
    ∀ (insights : List Insight) (st : FilterState) (rows : List Place),
      filterData insights st (filterData insights st rows) = filterData insights st rows := by
  intro insights st rows
  rw [filterData_eq, filterData_eq]
  haveI hto : IsTotal Place (cmpLe (resolveInsight insights st.insight).sort) :=
    ⟨cmpLe_total _⟩
  haveI htr : IsTrans Place (cmpLe (resolveInsight insights st.insight).sort) :=
    ⟨cmpLe_trans _⟩
  have h1 : applyFilters (stageList insights st)
      ((applyFilters (stageList insights st) rows).insertionSort
        (cmpLe (resolveInsight insights st.insight).sort)) =
      (applyFilters (stageList insights st) rows).insertionSort
        (cmpLe (resolveInsight insights st.insight).sort) := by
    apply applyFilters_eq_self
    intro x hx f hf
    exact applyFilters_props (stageList insights st) rows x
      ((List.mem_insertionSort _).mp hx) f hf
  rw [h1]
  exact List.Sorted.insertionSort_eq (List.sorted_insertionSort _ _)

theorem filter_true_id (l : List Place) : l.filter (fun _ => true) = l :=
  List.filter_eq_self.mpr (fun _ _ => rfl)

/-- C5.  With similarity mode active the district, category and insight
predicate stages admit every record — `filterData` equals the pipeline
of only the free-text, sentiment, price and tag stages followed by the
sort; with similarity mode inactive it equals the full seven-stage
pipeline in the fixed source order (district, category, insight
predicate, text, sentiment, price, tags) followed by the sort. -/
theorem similar_mode_stage_bypass :
    ∀ (insights : List Insight) (st : FilterState) (rows : List Place),
      (st.similarMode = true →
        filterData insights st rows =
          ((((rows.filter (textStage st)).filter (sentimentStage st)).filter
            (priceStage st)).filter (tagsStage st)).insertionSort
            (cmpLe (resolveInsight insights st.insight).sort)) ∧
      (st.similarMode = false →
        filterData insights st rows =
          (((((((rows.filter (districtStage st)).filter (categoryStage st)).filter
            ((resolveInsight insights st.insight).predicate)).filter (textStage st)).filter
            (sentimentStage st)).filter (priceStage st)).filter (tagsStage st)).insertionSort
            (cmpLe (resolveInsight insights st.insight).sort)) := by
  intro insights st rows
  constructor <;> intro h <;> unfold filterData <;> rw [h] <;>
    simp only [if_true, Bool.false_eq_true, if_false, filter_true_id]

theorem similar_mode_stage_bypass_witness :
    filterData [defaultAllInsight] simState [otherDistrictPlace] = [otherDistrictPlace] := by
  have h := (similar_mode_stage_bypass [defaultAllInsight] simState [otherDistrictPlace]).1 rfl
  rw [h]
  decide
